import Mathlib

/-!
Verification of the page-range parser and extraction orchestrator of
`src/tools/src/aden_tools/tools/pdf_read_tool/pdf_read_tool.py`.

Python strings are modelled as `List Char` (`PyStr`), with the ASCII
behaviour of the string operations the tool uses (`str.lower`,
`str.isdigit`, `str.strip`, `str.split`, `int(...)`).  Python integers are
modelled as `Int`; `list(range(a, b))` as `pyRange a b`.  The fallible
parser returns a tagged result (`PyRes`) whose error constructors carry the
interpolated values of the corresponding f-string message templates of the
source, one constructor per `return` site with an error.
-/

/-- Python `str`, as its sequence of characters. -/
abbrev PyStr := List Char

/-- The ten ASCII digit characters. -/
def digitChars : PyStr := ['0', '1', '2', '3', '4', '5', '6', '7', '8', '9']

/-- ASCII reading of a digit character test (Python `str.isdigit`, per char). -/
def pyDigit (c : Char) : Bool := decide (c ∈ digitChars)

/-- Characters stripped by Python `str.strip()` and by `int(...)`. -/
def pySpace (c : Char) : Bool := decide (c ∈ [' ', '\t', '\n', '\r', '\x0b', '\x0c'])

/-- Python `str.lower` (ASCII case folding; the only comparison made with
its result is against the all-lowercase token "all", line 50). -/
def pyLower (s : PyStr) : PyStr := s.map Char.toLower

/-- Python `str.isdigit` (line 54, `pages.isdigit()`): nonempty, all digits. -/
def pyIsDigit (s : PyStr) : Bool := !s.isEmpty && s.all pyDigit

/-- Python `str.strip()`: drop leading and trailing whitespace. -/
def pyStrip (s : PyStr) : PyStr := ((s.dropWhile pySpace).reverse.dropWhile pySpace).reverse

/-- The tail of the digit part of a Python integer literal: digit
characters, with a single underscore allowed only between two digits. -/
def digitTail : List Char → Bool
  | [] => true
  | c :: rest =>
    if c = '_' then
      match rest with
      | [] => false
      | d :: rest2 => pyDigit d && digitTail rest2
    else
      pyDigit c && digitTail rest

/-- The digit part of a Python integer literal: a digit, then `digitTail`. -/
def digitsOk : List Char → Bool
  | [] => false
  | c :: rest => pyDigit c && digitTail rest

/-- Numeric value of a digit string (underscores ignored, as Python `int` does). -/
def digitsVal (s : List Char) : Nat :=
  (s.filter (fun c => c != '_')).foldl (fun a c => 10 * a + (c.toNat - 48)) 0

/-- Python `int(s)` on a `str` argument: optional surrounding whitespace, an
optional single sign, then a digit sequence; `none` models the `ValueError`
that the `except ValueError` clause on line 83 catches. -/
def pyInt (s : PyStr) : Option Int :=
  match pyStrip s with
  | [] => none
  | c :: rest =>
    if c = '+' then (if digitsOk rest then some (digitsVal rest : Int) else none)
    else if c = '-' then (if digitsOk rest then some (-(digitsVal rest : Int)) else none)
    else if digitsOk (c :: rest) then some (digitsVal (c :: rest) : Int) else none

/-- Python `s.split(sep, 1)` for a one-character separator that occurs in
`s`: the parts before and after its first occurrence.  (The guard on
line 60 guarantees the separator occurs, so the unpacking into
`start_str, end_str` on line 61 always sees exactly two parts.) -/
def splitOnce (c : Char) : List Char → List Char × List Char
  | [] => ([], [])
  | x :: xs =>
    if x = c then ([], xs)
    else
      let p := splitOnce c xs
      (x :: p.1, p.2)

/-- Python `s.split(sep)` for a one-character separator: split at every
occurrence; always returns at least one (possibly empty) part. -/
def splitChar (c : Char) : List Char → List (List Char)
  | [] => [[]]
  | x :: xs =>
    let r := splitChar c xs
    if x = c then [] :: r
    else (x :: r.headI) :: r.tail

/-- Python `sep.join(parts)`. -/
def joinSep (sep : List Char) : List (List Char) → List Char
  | [] => []
  | [p] => p
  | p :: q :: rest => p ++ sep ++ joinSep sep (q :: rest)

/-- Python `list(range(a, b))` over `Int`. -/
def pyRange (a b : Int) : List Int :=
  (List.range (b - a).toNat).map (fun (n : Nat) => a + (n : Int))

/-- The error `return` sites of `parse_page_range` (lines 57, 65, 67, 69,
77, 81, 84), one constructor per f-string template, each carrying the
values interpolated into that template. -/
inductive PyErr where
  | pageOutOfRange (p : Int) (total_pages : Int)
  | invalidRange (pages : PyStr)
  | startBelowOne (start : Int)
  | invalidFormat (pages : PyStr)
  | invalidFormatParse (pages : PyStr)
deriving DecidableEq, Repr

/-- The spec's error taxonomy (spec section 7) for the parser.  The spec's
own examples classify the message "Page numbers start at 1, got 0."
(produced for "0-2") under `PageOutOfRange`, so `startBelowOne` maps there;
both "Invalid page format" templates (with and without the caught
exception text) map to `InvalidFormat`. -/
inductive ErrKind where
  | pageOutOfRange
  | invalidRange
  | invalidFormat
deriving DecidableEq, Repr

/-- Classification of each error return site under the spec's taxonomy. -/
def errKind : PyErr → ErrKind
  | .pageOutOfRange _ _ => .pageOutOfRange
  | .startBelowOne _ => .pageOutOfRange
  | .invalidRange _ => .invalidRange
  | .invalidFormat _ => .invalidFormat
  | .invalidFormatParse _ => .invalidFormat

/-- Result of `parse_page_range`: a list of 0-based indices on success, an
error record on failure (the Python function returns `list[int] | dict`). -/
inductive PyRes where
  | ok (indices : List Int)
  | err (e : PyErr)
deriving DecidableEq, Repr

/-- The case-insensitive "all" token compared against on line 50. -/
def allTok : PyStr := "all".toList

/-- Embedding of `parse_page_range` (lines 34-84).  Notes on fidelity:
the `none` fallback in the `pyIsDigit` branch mirrors the fact that the
`int(pages)` call on line 55 sits inside the `try` block (it cannot fail
for an ASCII digit string, which is proved below); `take max_pages.toNat`
mirrors the slice `page_nums[:max_pages]` on line 79, which agrees with
Python slicing for `max_pages >= 0` (the caller clamps it to `[1, 1000]`
on line 133); `stop` renders the Python variable `end`, a Lean keyword. -/
def parse_page_range (pages : Option PyStr) (total_pages max_pages : Int) : PyRes :=
  match pages with
  | none => .ok (pyRange 0 (min total_pages max_pages))
  | some s =>
    if pyLower s = allTok then
      .ok (pyRange 0 (min total_pages max_pages))
    else if pyIsDigit s then
      match pyInt s with
      | some page_num =>
        if page_num < 1 ∨ page_num > total_pages then
          .err (.pageOutOfRange page_num total_pages)
        else
          .ok [page_num - 1]
      | none => .err (.invalidFormatParse s)
    else if s.contains '-' && !s.contains ',' then
      match pyInt (splitOnce '-' s).1, pyInt (splitOnce '-' s).2 with
      | some start, some stop =>
        if start > stop then .err (.invalidRange s)
        else if start < 1 then .err (.startBelowOne start)
        else if stop > total_pages then .err (.pageOutOfRange stop total_pages)
        else .ok (pyRange (start - 1) (min stop (start - 1 + max_pages)))
      | _, _ => .err (.invalidFormatParse s)
    else if s.contains ',' then
      match (splitChar ',' s).mapM (fun t => pyInt (pyStrip t)) with
      | some page_nums =>
        match page_nums.find? (fun p => decide (p < 1 ∨ p > total_pages)) with
        | some p => .err (.pageOutOfRange p total_pages)
        | none => .ok ((page_nums.take max_pages.toNat).map (fun p => p - 1))
      | none => .err (.invalidFormatParse s)
    else .err (.invalidFormat s)

/-- Decimal digit character for a value below ten, `Char.ofNat (48 + d)`. -/
def digitChar (d : Nat) : Char := Char.ofNat (48 + d)

/-- Fuel-indexed decimal rendering of a natural number (the fuel makes the
recursion structural; `natStr` supplies enough fuel). -/
def natStrGo : Nat → Nat → List Char
  | 0, _ => []
  | f + 1, n =>
    if n < 10 then [digitChar n]
    else natStrGo f (n / 10) ++ [digitChar (n % 10)]

/-- Decimal rendering of a natural number, as Python `str` renders the
nonnegative integers interpolated into f-strings. -/
def natStr (n : Nat) : List Char := natStrGo (n + 1) n

/-- The fixed prefix of a page marker line (line 151). -/
def markerPre : PyStr := "--- Page ".toList

/-- The fixed suffix of a page marker line (line 151). -/
def markerSuf : PyStr := " ---".toList

/-- The page marker line `--- Page {n} ---` built on line 151 (with `n` the
1-based page number). -/
def markerLine (n : Nat) : PyStr := markerPre ++ natStr n ++ markerSuf

/-- Decides whether a line is a page marker line, i.e. of the form
`--- Page {n} ---` for some natural number `n` rendered canonically (no
sign, no leading zero): the prefix and suffix match and the middle part is
its own decimal re-rendering. -/
def isMarkerLine (l : PyStr) : Bool :=
  decide (13 ≤ l.length) &&
  (l.take 9 == markerPre) &&
  (l.drop (l.length - 4) == markerSuf) &&
  (natStr (digitsVal ((l.drop 9).take (l.length - 13))) == (l.drop 9).take (l.length - 13))

/-- Number of page marker lines among the lines of a string. -/
def countMarkers (s : PyStr) : Nat := (splitChar '\n' s).countP isMarkerLine

/-- The keys of the metadata record built on lines 163-171 (the Python dict
has string keys; an inductive stands for the fixed key set). -/
inductive MetaKey where
  | title
  | author
  | subject
  | creator
  | producer
  | created
  | modified
deriving DecidableEq, Repr

/-- The fields of `reader.metadata` that `pdf_read` reads via `meta.get`
(lines 165-170).  Values are modelled by their text; a `meta.get` returning
Python `None` is `none`.  `str()` applied to a pypdf text object is
modelled as the identity on its text. -/
structure PdfMeta where
  title : Option PyStr
  author : Option PyStr
  subject : Option PyStr
  creator : Option PyStr
  producer : Option PyStr
  creationDate : Option PyStr
  modDate : Option PyStr
deriving DecidableEq, Repr

/-- The opened PDF document, i.e. the part of the pypdf `PdfReader`
collaborator that `pdf_read` consumes: the encryption flag (line 137), the
per-page `extract_text()` results (line 146, `none` when `extract_text()`
returns Python `None`), and the metadata (line 161; an absent or empty -
hence falsy - `reader.metadata` is modelled as `none`). -/
structure PdfDocument where
  isEncrypted : Bool
  pageTexts : List (Option PyStr)
  metadata : Option PdfMeta
deriving DecidableEq, Repr

/-- The date conversion on lines 169-170:
`str(meta.get(k)) if meta.get(k) else None`.  Python truthiness makes an
empty text falsy, so it also maps to `None`. -/
def strIfTruthy : Option PyStr → Option PyStr
  | some d => if d = [] then none else some d
  | none => none

/-- The metadata record built on lines 163-171: every key is always
present; values may be Python `None` (`none`). -/
def buildMeta (m : PdfMeta) : List (MetaKey × Option PyStr) :=
  [(MetaKey.title, m.title), (MetaKey.author, m.author),
   (MetaKey.subject, m.subject), (MetaKey.creator, m.creator),
   (MetaKey.producer, m.producer),
   (MetaKey.created, strIfTruthy m.creationDate),
   (MetaKey.modified, strIfTruthy m.modDate)]

/-- The success record of `pdf_read` (lines 153-171).  `path` and `name`
echo the validated input path and are passed through as given.  The
`metadata` field is `none` exactly when the Python dict has no "metadata"
key at all (the code only ever assigns it inside the `if` on line 161). -/
structure ExtractionResult where
  path : PyStr
  name : PyStr
  total_pages : Int
  pages_extracted : Nat
  content : PyStr
  char_count : Nat
  metadata : Option (List (MetaKey × Option PyStr))
deriving DecidableEq, Repr

/-- The error outcomes of `pdf_read` after the document is open: the
encrypted-PDF rejection (line 138) and a propagated parser error
(lines 142-143).  The path-validation failures on lines 126-131 and the
`except` clauses at the bottom concern file-system and decoder I/O outside
this embedding. -/
inductive PdfErr where
  | encrypted
  | pageErr (e : PyErr)
deriving DecidableEq, Repr

/-- Result of `pdf_read`: a success record or an error record. -/
inductive PdfOut where
  | ok (r : ExtractionResult)
  | err (e : PdfErr)
deriving DecidableEq, Repr

/-- The text extracted for a 0-based page index (line 146,
`reader.pages[idx].extract_text() or ""`).  The parser invariant proved
below keeps every produced index inside `[0, total_pages)`, so plain
`Nat` indexing with a default is faithful on every reachable index. -/
def pageText (doc : PdfDocument) (idx : Int) : PyStr :=
  (doc.pageTexts.getD idx.toNat none).getD []

/-- One entry of `content_parts` (line 147):
the marker line, a newline, then the page text. -/
def pagePart (idx : Int) (text : PyStr) : PyStr :=
  markerLine (idx + 1).toNat ++ '\n' :: text

/-- The `content` string (lines 145-149): the parts joined by a blank
line (`"\n\n".join(content_parts)`). -/
def pdfContent (doc : PdfDocument) (idxs : List Int) : PyStr :=
  joinSep ['\n', '\n'] (idxs.map (fun idx => pagePart idx (pageText doc idx)))

/-- Embedding of the body of `pdf_read` (lines 133-171) from the point
where the document is open: clamp `max_pages`, reject encrypted documents,
parse the page selection, build the content and the result record.  The
path checks on lines 124-131 and the closing `except` clauses are
file-system and decoder I/O outside the embedding; `path` and `name` are
passed through as given. -/
def pdf_read (doc : PdfDocument) (pathStr nameStr : PyStr) (pages : Option PyStr)
    (max_pages : Int) (include_metadata : Bool) : PdfOut :=
  let mp := max 1 (min max_pages 1000)
  if doc.isEncrypted then .err .encrypted
  else
    let total_pages : Int := doc.pageTexts.length
    match parse_page_range pages total_pages mp with
    | .err e => .err (.pageErr e)
    | .ok page_indices =>
      let content := pdfContent doc page_indices
      .ok { path := pathStr
            name := nameStr
            total_pages := total_pages
            pages_extracted := page_indices.length
            content := content
            char_count := content.length
            metadata := if include_metadata then doc.metadata.map buildMeta else none }

/-- A document with metadata whose dates are absent (used to exhibit the
created/modified keys of the built metadata record). -/
def meta0 : PdfMeta :=
  { title := some ['t'], author := none, subject := none, creator := none,
    producer := none, creationDate := none, modDate := none }

/-- An empty, unencrypted document carrying `meta0`. -/
def doc0 : PdfDocument := { isEncrypted := false, pageTexts := [], metadata := some meta0 }

/-- The extraction result for `doc0` with a `None` selection and metadata
included. -/
def res0 : ExtractionResult :=
  { path := [], name := [], total_pages := 0, pages_extracted := 0,
    content := [], char_count := 0, metadata := some (buildMeta meta0) }

/-- A two-page unencrypted document without metadata (the second page text
contains an internal newline). -/
def doc1 : PdfDocument :=
  { isEncrypted := false,
    pageTexts := [some ("hello".toList), some ("wor\nld".toList)],
    metadata := none }

/-- The extraction result for `doc1` with a `None` selection. -/
def res1 : ExtractionResult :=
  { path := [], name := [], total_pages := 2, pages_extracted := 2,
    content := "--- Page 1 ---\nhello\n\n--- Page 2 ---\nwor\nld".toList,
    char_count := ("--- Page 1 ---\nhello\n\n--- Page 2 ---\nwor\nld".toList).length,
    metadata := none }

/-! Sanity checks of the embedding on the concrete inputs named in the
spec's "testable properties" section. -/

example : parse_page_range (some ("3-7".toList)) 10 5 = .ok [2, 3, 4, 5, 6] := by decide

example : parse_page_range (some ("3-7".toList)) 10 3 = .ok [2, 3, 4] := by decide

example : parse_page_range (some ("2,5,1".toList)) 5 100 = .ok [1, 4, 0] := by decide

example : parse_page_range (some ("ALL".toList)) 3 100 = .ok [0, 1, 2] := by decide

example : parse_page_range (some ("2--4".toList)) 10 100 = .err (.invalidRange ("2--4".toList)) := by decide

example : parse_page_range (some ("-3".toList)) 10 100 = .err (.invalidFormatParse ("-3".toList)) := by decide

example : parse_page_range (some ("0-2".toList)) 10 100 = .err (.startBelowOne 0) := by decide

example : parse_page_range (some ("5-2".toList)) 10 100 = .err (.invalidRange ("5-2".toList)) := by decide

example : parse_page_range (some (" 3 - 7 ".toList)) 10 100 = .ok [2, 3, 4, 5, 6] := by decide

example : natStr 17 = ['1', '7'] := by decide

example : isMarkerLine (markerLine 12) = true := by decide

example : isMarkerLine ("--- Page 007 ---".toList) = false := by decide

example : countMarkers ("--- Page 1 ---\nhello\n\n--- Page 2 ---\nworld".toList) = 2 := by decide

/-! Helper lemmas about the string model. -/

lemma mem_pyRange {a b i : Int} : i ∈ pyRange a b ↔ a ≤ i ∧ i < b := by
  simp only [pyRange, List.mem_map, List.mem_range]
  constructor
  · rintro ⟨k, hk, rfl⟩
    omega
  · rintro ⟨h1, h2⟩
    exact ⟨(i - a).toNat, by omega, by omega⟩

lemma pyRange_length (a b : Int) : (pyRange a b).length = (b - a).toNat := by
  simp only [pyRange, List.length_map, List.length_range]

lemma pyRange_sorted (a b : Int) : (pyRange a b).Sorted (· < ·) := by
  have h := List.pairwise_lt_range (b - a).toNat
  exact List.Pairwise.map _ (fun m n hmn => by omega) h

lemma pyRange_zero (b : Int) :
    pyRange 0 b = (List.range b.toNat).map (fun (n : Nat) => (n : Int)) := by
  simp only [pyRange, Int.sub_zero, Int.zero_add]

lemma contains_iff_mem {c : Char} {s : List Char} : s.contains c = true ↔ c ∈ s := by
  simp [List.contains]

lemma pyDigit_cases {c : Char} (h : pyDigit c = true) :
    c = '0' ∨ c = '1' ∨ c = '2' ∨ c = '3' ∨ c = '4' ∨
    c = '5' ∨ c = '6' ∨ c = '7' ∨ c = '8' ∨ c = '9' := by
  have : c ∈ digitChars := by simpa [pyDigit] using h
  simpa [digitChars] using this

lemma pyDigit_facts {c : Char} (h : pyDigit c = true) :
    Char.toLower c = c ∧ pySpace c = false ∧ c ≠ '_' ∧ c ≠ '\n' ∧ c ≠ '+' ∧ c ≠ '-' ∧ c ≠ ',' := by
  rcases pyDigit_cases h with rfl | rfl | rfl | rfl | rfl | rfl | rfl | rfl | rfl | rfl <;> decide

lemma pyIsDigit_parts {s : List Char} (h : pyIsDigit s = true) :
    s ≠ [] ∧ ∀ c ∈ s, pyDigit c = true := by
  have h2 : s.isEmpty = false ∧ s.all pyDigit = true := by
    constructor
    · cases h3 : s.isEmpty
      · rfl
      · rw [pyIsDigit, h3] at h
        simp at h
    · cases h3 : s.all pyDigit
      · rw [pyIsDigit, h3] at h
        simp at h
      · rfl
  refine ⟨by simpa using h2.1, List.all_eq_true.mp h2.2⟩

lemma dash_not_isDigit {s : List Char} (h : s.contains '-' = true) : pyIsDigit s = false := by
  cases h1 : pyIsDigit s
  · rfl
  · exfalso
    have := (pyIsDigit_parts h1).2 '-' (contains_iff_mem.mp h)
    exact absurd this (by decide)

lemma comma_not_isDigit {s : List Char} (h : s.contains ',' = true) : pyIsDigit s = false := by
  cases h1 : pyIsDigit s
  · rfl
  · exfalso
    have := (pyIsDigit_parts h1).2 ',' (contains_iff_mem.mp h)
    exact absurd this (by decide)

lemma lower_all_head {s : List Char} (h : pyLower s = allTok) :
    ∃ c ∈ s, Char.toLower c = 'a' := by
  have h1 : 'a' ∈ pyLower s := by rw [h]; decide
  simpa [pyLower, List.mem_map] using h1

lemma lower_all_mem {s : List Char} (h : pyLower s = allTok) :
    ∀ c ∈ s, Char.toLower c ∈ allTok := by
  intro c hc
  rw [← h]
  exact List.mem_map_of_mem _ hc

lemma dash_not_all {s : List Char} (h : s.contains '-' = true) : pyLower s ≠ allTok := by
  intro hall
  have := lower_all_mem hall '-' (contains_iff_mem.mp h)
  exact absurd this (by decide)

lemma comma_not_all {s : List Char} (h : s.contains ',' = true) : pyLower s ≠ allTok := by
  intro hall
  have := lower_all_mem hall ',' (contains_iff_mem.mp h)
  exact absurd this (by decide)

lemma isDigit_not_all {s : List Char} (h : pyIsDigit s = true) : pyLower s ≠ allTok := by
  intro hall
  obtain ⟨c, hc, hlow⟩ := lower_all_head hall
  have hdig : pyDigit c = true := (pyIsDigit_parts h).2 c hc
  have heq : c = 'a' := by rw [← (pyDigit_facts hdig).1, hlow]
  subst heq
  exact absurd hdig (by decide)

lemma dropWhile_eq_self_of_all {s : List Char} (h : ∀ c ∈ s, pySpace c = false) :
    s.dropWhile pySpace = s := by
  cases s with
  | nil => rfl
  | cons c t =>
    rw [List.dropWhile_cons, h c (List.mem_cons_self c t)]
    simp

lemma pyStrip_eq_self {s : List Char} (h : ∀ c ∈ s, pySpace c = false) : pyStrip s = s := by
  unfold pyStrip
  rw [dropWhile_eq_self_of_all h,
    dropWhile_eq_self_of_all (fun c hc => h c (List.mem_reverse.mp hc)),
    List.reverse_reverse]

lemma digitTail_of_all {s : List Char} (h : ∀ c ∈ s, pyDigit c = true) :
    digitTail s = true := by
  induction s with
  | nil => rfl
  | cons c t ih =>
    have hc := h c (List.mem_cons_self c t)
    have hne : ¬ c = '_' := (pyDigit_facts hc).2.2.1
    rw [digitTail.eq_def]
    simp only []
    rw [if_neg hne, hc, ih (fun d hd => h d (List.mem_cons_of_mem c hd))]
    rfl

lemma pyInt_of_isDigit {s : List Char} (h : pyIsDigit s = true) :
    pyInt s = some (digitsVal s : Int) := by
  obtain ⟨hne, hall⟩ := pyIsDigit_parts h
  obtain ⟨c, rest, rfl⟩ := List.exists_cons_of_ne_nil hne
  have hc : pyDigit c = true := hall c (List.mem_cons_self c rest)
  have hstrip : pyStrip (c :: rest) = c :: rest :=
    pyStrip_eq_self (fun d hd => (pyDigit_facts (hall d hd)).2.1)
  have hok : digitsOk (c :: rest) = true := by
    rw [digitsOk, hc,
      digitTail_of_all (fun d hd => hall d (List.mem_cons_of_mem c hd))]
    rfl
  rw [pyInt, hstrip]
  simp [(pyDigit_facts hc).2.2.2.2.1, (pyDigit_facts hc).2.2.2.2.2.1, hok]

/-! Helper lemmas about splitting and joining. -/

lemma splitChar_ne_nil (c : Char) (s : List Char) : splitChar c s ≠ [] := by
  cases s with
  | nil => simp [splitChar]
  | cons x xs => by_cases hx : x = c <;> simp [splitChar, hx]

lemma splitChar_append (c : Char) (a b : List Char) :
    splitChar c (a ++ c :: b) = splitChar c a ++ splitChar c b := by
  induction a with
  | nil => simp [splitChar]
  | cons x xs ih =>
    by_cases hx : x = c
    · subst hx
      simp [splitChar, ih]
    · obtain ⟨r0, rs, hr⟩ := List.exists_cons_of_ne_nil (splitChar_ne_nil c xs)
      simp [splitChar, hx, ih, hr]

lemma splitChar_of_not_mem {c : Char} {s : List Char} (h : c ∉ s) : splitChar c s = [s] := by
  induction s with
  | nil => rfl
  | cons x xs ih =>
    have hx : ¬ x = c := fun hh => h (hh ▸ List.mem_cons_self x xs)
    have hxs : c ∉ xs := fun hm => h (List.mem_cons_of_mem x hm)
    simp [splitChar, hx, ih hxs]

lemma joinSep_cons_cons (sep p q : List Char) (rest : List (List Char)) :
    joinSep sep (p :: q :: rest) = p ++ sep ++ joinSep sep (q :: rest) := rfl

/-! Helper lemmas about decimal rendering. -/

lemma pyDigit_digitChar {d : Nat} (h : d < 10) : pyDigit (digitChar d) = true := by
  interval_cases d <;> decide

lemma digitChar_toNat {d : Nat} (h : d < 10) : (digitChar d).toNat = 48 + d := by
  interval_cases d <;> decide

lemma natStrGo_congr (n : Nat) : ∀ f g, n < f → n < g → natStrGo f n = natStrGo g n := by
  induction n using Nat.strong_induction_on with
  | _ n ih =>
    intro f g hf hg
    cases f with
    | zero => omega
    | succ f =>
      cases g with
      | zero => omega
      | succ g =>
        simp only [natStrGo]
        by_cases h10 : n < 10
        · simp [h10]
        · have hdiv : n / 10 < n := Nat.div_lt_self (by omega) (by omega)
          rw [if_neg h10, if_neg h10, ih (n / 10) hdiv f g (by omega) (by omega)]

lemma natStr_eq (n : Nat) :
    natStr n = if n < 10 then [digitChar n] else natStr (n / 10) ++ [digitChar (n % 10)] := by
  rw [natStr]
  simp only [natStrGo]
  by_cases h10 : n < 10
  · simp [h10]
  · have hdiv : n / 10 < n := Nat.div_lt_self (by omega) (by omega)
    rw [if_neg h10, if_neg h10, natStr,
      natStrGo_congr (n / 10) n (n / 10 + 1) (by omega) (by omega)]

lemma natStr_ne_nil (n : Nat) : natStr n ≠ [] := by
  rw [natStr_eq]
  by_cases h10 : n < 10 <;> simp [h10]

lemma natStr_digits (n : Nat) : ∀ c ∈ natStr n, pyDigit c = true := by
  induction n using Nat.strong_induction_on with
  | _ n ih =>
    rw [natStr_eq]
    by_cases h10 : n < 10
    · rw [if_pos h10]
      intro c hc
      rw [List.mem_singleton.mp hc]
      exact pyDigit_digitChar h10
    · have hdiv : n / 10 < n := Nat.div_lt_self (by omega) (by omega)
      rw [if_neg h10]
      intro c hc
      rcases List.mem_append.mp hc with hm | hm
      · exact ih (n / 10) hdiv c hm
      · rw [List.mem_singleton.mp hm]
        exact pyDigit_digitChar (Nat.mod_lt _ (by omega))

lemma digitsVal_append_digit (xs : List Char) (c : Char) (hne : (c != '_') = true) :
    digitsVal (xs ++ [c]) = 10 * digitsVal xs + (c.toNat - 48) := by
  unfold digitsVal
  rw [List.filter_append]
  simp only [List.filter, hne]
  rw [List.foldl_append]
  rfl

lemma digitsVal_natStr (n : Nat) : digitsVal (natStr n) = n := by
  induction n using Nat.strong_induction_on with
  | _ n ih =>
    rw [natStr_eq]
    by_cases h10 : n < 10
    · rw [if_pos h10]
      interval_cases n <;> decide
    · have hdiv : n / 10 < n := Nat.div_lt_self (by omega) (by omega)
      have hmod : n % 10 < 10 := Nat.mod_lt _ (by omega)
      have hne : (digitChar (n % 10) != '_') = true := by
        interval_cases h : n % 10 <;> decide
      rw [if_neg h10, digitsVal_append_digit _ _ hne, ih (n / 10) hdiv,
        digitChar_toNat hmod]
      omega

/-! Helper lemmas about marker lines and marker counting. -/

lemma markerLine_no_newline (n : Nat) : ∀ c ∈ markerLine n, ¬ c = '\n' := by
  intro c hc
  rw [markerLine, List.append_assoc] at hc
  have hp : ∀ d ∈ markerPre, ¬ d = '\n' := by decide
  have hs : ∀ d ∈ markerSuf, ¬ d = '\n' := by decide
  rcases List.mem_append.mp hc with hm | hm
  · exact hp c hm
  · rcases List.mem_append.mp hm with hm2 | hm2
    · exact (pyDigit_facts (natStr_digits n c hm2)).2.2.2.1
    · exact hs c hm2

lemma splitChar_markerLine (n : Nat) : splitChar '\n' (markerLine n) = [markerLine n] :=
  splitChar_of_not_mem (fun h => markerLine_no_newline n '\n' h rfl)

lemma markerPre_length : markerPre.length = 9 := rfl

lemma markerSuf_length : markerSuf.length = 4 := rfl

lemma markerLine_length (n : Nat) : (markerLine n).length = 13 + (natStr n).length := by
  simp only [markerLine, List.length_append, markerPre_length, markerSuf_length]
  omega

lemma isMarkerLine_markerLine (n : Nat) : isMarkerLine (markerLine n) = true := by
  have htake : (markerLine n).take 9 = markerPre := by
    rw [markerLine, List.append_assoc]
    exact List.take_left' markerPre_length
  have hdrop4 : (markerLine n).drop ((markerLine n).length - 4) = markerSuf := by
    have h1 : (markerPre ++ natStr n).length = (markerLine n).length - 4 := by
      simp only [List.length_append, markerPre_length, markerLine_length]
      omega
    rw [markerLine]
    exact List.drop_left' h1
  have hdrop9 : (markerLine n).drop 9 = natStr n ++ markerSuf := by
    rw [markerLine, List.append_assoc]
    exact List.drop_left' markerPre_length
  have hmid : ((markerLine n).drop 9).take ((markerLine n).length - 13) = natStr n := by
    rw [hdrop9]
    have h2 : (natStr n).length = (markerLine n).length - 13 := by
      rw [markerLine_length]
      omega
    exact List.take_left' h2
  rw [isMarkerLine, htake, hdrop4, hmid, digitsVal_natStr, markerLine_length]
  simp

lemma isMarkerLine_nil : isMarkerLine [] = false := by decide

lemma countMarkers_joinSep (parts : List PyStr)
    (h : ∀ p ∈ parts, (splitChar '\n' p).countP isMarkerLine = 1) :
    (splitChar '\n' (joinSep ['\n', '\n'] parts)).countP isMarkerLine = parts.length := by
  induction parts with
  | nil => decide
  | cons p rest ih =>
    cases rest with
    | nil =>
      simpa [joinSep] using h p (List.mem_cons_self p [])
    | cons q rest2 =>
      have hj : joinSep ['\n', '\n'] (p :: q :: rest2) =
          p ++ '\n' :: ('\n' :: joinSep ['\n', '\n'] (q :: rest2)) := by
        rw [joinSep_cons_cons, List.append_assoc]
        rfl
      have hsc : splitChar '\n' ('\n' :: joinSep ['\n', '\n'] (q :: rest2)) =
          [] :: splitChar '\n' (joinSep ['\n', '\n'] (q :: rest2)) := by
        simp [splitChar]
      rw [hj, splitChar_append, List.countP_append, hsc, List.countP_cons,
        h p (List.mem_cons_self p (q :: rest2)),
        ih (fun r hr => h r (List.mem_cons_of_mem p hr))]
      simp [isMarkerLine_nil]
      omega

lemma countP_pagePart (idx : Int) (text : PyStr)
    (h : ∀ l ∈ splitChar '\n' text, isMarkerLine l = false) :
    (splitChar '\n' (pagePart idx text)).countP isMarkerLine = 1 := by
  rw [pagePart, splitChar_append, splitChar_markerLine, List.countP_append]
  have h0 : (splitChar '\n' text).countP isMarkerLine = 0 :=
    List.countP_eq_zero.mpr (fun l hl => by simp [h l hl])
  simp [List.countP_cons, isMarkerLine_markerLine, h0]

lemma countMarkers_pdfContent (doc : PdfDocument) (idxs : List Int)
    (h : ∀ t ∈ doc.pageTexts, ∀ l ∈ splitChar '\n' (t.getD []), isMarkerLine l = false) :
    countMarkers (pdfContent doc idxs) = idxs.length := by
  rw [countMarkers, pdfContent, countMarkers_joinSep]
  · rw [List.length_map]
  · intro p hp
    obtain ⟨idx, hidx, rfl⟩ := List.mem_map.mp hp
    apply countP_pagePart
    intro l hl
    by_cases hb : idx.toNat < doc.pageTexts.length
    · have hsome : doc.pageTexts.getD idx.toNat none = doc.pageTexts[idx.toNat] := by
        simp [List.getD_eq_getElem?_getD, List.getElem?_eq_getElem hb]
      have hmem : doc.pageTexts[idx.toNat] ∈ doc.pageTexts := List.getElem_mem hb
      rw [pageText, hsome] at hl
      exact h _ hmem l hl
    · have hnone : pageText doc idx = [] := by
        rw [pageText, List.getD_eq_default]
        · rfl
        · omega
      rw [hnone] at hl
      have : l = [] := by simpa [splitChar] using hl
      rw [this]
      exact isMarkerLine_nil

/-! Branch-reduction lemmas for `parse_page_range`: each one shows which
branch of the function a class of selection strings reaches. -/

lemma parse_page_range_all {s : List Char} (total max : Int) (hall : pyLower s = allTok) :
    parse_page_range (some s) total max = .ok (pyRange 0 (min total max)) := by
  rw [parse_page_range, if_pos hall]

lemma parse_page_range_digit {s : List Char} (total max : Int) (hd : pyIsDigit s = true) :
    parse_page_range (some s) total max =
      if (digitsVal s : Int) < 1 ∨ (digitsVal s : Int) > total then
        .err (.pageOutOfRange (digitsVal s) total)
      else
        .ok [(digitsVal s : Int) - 1] := by
  rw [parse_page_range, if_neg (isDigit_not_all hd)]
  rw [hd, pyInt_of_isDigit hd]
  rfl

lemma parse_page_range_dash {s : List Char} (total max : Int)
    (hd : s.contains '-' = true) (hc : s.contains ',' = false) :
    parse_page_range (some s) total max =
      match pyInt (splitOnce '-' s).1, pyInt (splitOnce '-' s).2 with
      | some start, some stop =>
        if start > stop then .err (.invalidRange s)
        else if start < 1 then .err (.startBelowOne start)
        else if stop > total then .err (.pageOutOfRange stop total)
        else .ok (pyRange (start - 1) (min stop (start - 1 + max)))
      | _, _ => .err (.invalidFormatParse s) := by
  rw [parse_page_range, if_neg (dash_not_all hd)]
  rw [dash_not_isDigit hd]
  rw [hd, hc]
  rfl

lemma parse_page_range_comma {s : List Char} (total max : Int)
    (hc : s.contains ',' = true) :
    parse_page_range (some s) total max =
      match (splitChar ',' s).mapM (fun t => pyInt (pyStrip t)) with
      | some page_nums =>
        match page_nums.find? (fun p => decide (p < 1 ∨ p > total)) with
        | some p => .err (.pageOutOfRange p total)
        | none => .ok ((page_nums.take max.toNat).map (fun p => p - 1))
      | none => .err (.invalidFormatParse s) := by
  rw [parse_page_range, if_neg (comma_not_all hc)]
  rw [comma_not_isDigit hc]
  rw [hc]
  simp only [Bool.not_true, Bool.and_false]
  rfl

lemma parse_page_range_other {s : List Char} (total max : Int)
    (hall : ¬ pyLower s = allTok) (hdig : pyIsDigit s = false)
    (hd : s.contains '-' = false) (hc : s.contains ',' = false) :
    parse_page_range (some s) total max = .err (.invalidFormat s) := by
  rw [parse_page_range, if_neg hall, hdig, hd, hc]
  rfl

/-! The claims. -/

/-- C4: for every `total_pages >= 0` and `max_pages >= 1`, `parse_page_range`
applied to a `None` selection or to any case variant of the token "all"
returns exactly the ascending indices `0 .. min(total_pages, max_pages) - 1`:
the result equals `pyRange 0 (min total_pages max_pages)`, which is the list
of the first `min(total_pages, max_pages)` naturals in ascending order
starting at 0 (lines 50-51 of the source). -/
theorem C4_all_selection (pages : Option PyStr) (total_pages max_pages : Int)
    (htot : 0 ≤ total_pages) (hmax : 1 ≤ max_pages)
    (hsel : pages = none ∨ ∃ s, pages = some s ∧ pyLower s = allTok) :
    parse_page_range pages total_pages max_pages =
      .ok (pyRange 0 (min total_pages max_pages)) ∧
    pyRange 0 (min total_pages max_pages) =
      (List.range (min total_pages max_pages).toNat).map (fun (n : Nat) => (n : Int)) ∧
    ((pyRange 0 (min total_pages max_pages)).length : Int) = min total_pages max_pages ∧
    (pyRange 0 (min total_pages max_pages)).Sorted (· < ·) ∧
    (∀ i, i ∈ pyRange 0 (min total_pages max_pages) ↔
      0 ≤ i ∧ i < min total_pages max_pages) := by
  refine ⟨?_, pyRange_zero _, ?_, pyRange_sorted _ _, fun i => mem_pyRange⟩
  · rcases hsel with rfl | ⟨s, rfl, hall⟩
    · rw [parse_page_range]
    · exact parse_page_range_all _ _ hall
  · rw [pyRange_length]
    omega

/-- Witness for C4 at the concrete input `"All"`, `total_pages = 5`,
`max_pages = 3`. -/
theorem C4_witness :
    parse_page_range (some ("All".toList)) 5 3 = .ok (pyRange 0 (min 5 3)) :=
  (C4_all_selection (some ("All".toList)) 5 3 (by decide) (by decide)
    (Or.inr ⟨"All".toList, rfl, by decide⟩)).1

/-- C5: for every selection string that is a single non-negative integer
literal `n` (an all-digit string, which contains neither separator, so it
is dispatched before the dash and comma rules), `parse_page_range` returns
`[n - 1]` when `1 <= n <= total_pages` and otherwise fails with the
page-out-of-range error citing `n` and `total_pages` (lines 54-58). -/
theorem C5_single_page (s : PyStr) (total_pages max_pages : Int)
    (hd : pyIsDigit s = true) :
    ((1 ≤ (digitsVal s : Int) ∧ (digitsVal s : Int) ≤ total_pages) →
      parse_page_range (some s) total_pages max_pages =
        .ok [(digitsVal s : Int) - 1]) ∧
    (¬ (1 ≤ (digitsVal s : Int) ∧ (digitsVal s : Int) ≤ total_pages) →
      parse_page_range (some s) total_pages max_pages =
        .err (.pageOutOfRange (digitsVal s) total_pages) ∧
      errKind (.pageOutOfRange (digitsVal s) total_pages) = .pageOutOfRange) := by
  rw [parse_page_range_digit _ _ hd]
  constructor
  · intro hin
    rw [if_neg (by omega)]
  · intro hout
    rw [if_pos (by omega)]
    exact ⟨rfl, rfl⟩

/-- Witness for C5 at the concrete inputs `"3"` (in range, result `[2]`)
and `"0"` (out of range). -/
theorem C5_witness :
    parse_page_range (some ("3".toList)) 10 100 = .ok [2] ∧
    parse_page_range (some ("0".toList)) 10 100 = .err (.pageOutOfRange 0 10) := by
  constructor
  · have h := (C5_single_page ("3".toList) 10 100 (by decide)).1 (by decide)
    exact h.trans (by decide)
  · have h := (C5_single_page ("0".toList) 10 100 (by decide)).2 (by decide)
    exact h.1.trans (by decide)

/-- C2: for every selection (or `None`), `total_pages >= 0` and
`max_pages >= 1`, whenever `parse_page_range` returns a list rather than an
error, every returned index lies in `[0, total_pages)` and the list has at
most `max_pages` entries (the PageIndexList invariant of the spec's data
model, over the whole of lines 34-84). -/
theorem C2_index_invariant (pages : Option PyStr) (total_pages max_pages : Int)
    (htot : 0 ≤ total_pages) (hmax : 1 ≤ max_pages) (l : List Int)
    (h : parse_page_range pages total_pages max_pages = .ok l) :
    (∀ i ∈ l, 0 ≤ i ∧ i < total_pages) ∧ (l.length : Int) ≤ max_pages := by
  have hall_bounds : ∀ m : List Int, m = pyRange 0 (min total_pages max_pages) →
      (∀ i ∈ m, 0 ≤ i ∧ i < total_pages) ∧ (m.length : Int) ≤ max_pages := by
    rintro m rfl
    constructor
    · intro i hi
      have := mem_pyRange.mp hi
      omega
    · rw [pyRange_length]
      omega
  cases pages with
  | none =>
    rw [parse_page_range] at h
    have hl : pyRange 0 (min total_pages max_pages) = l := by simpa using h
    exact hall_bounds l hl.symm
  | some s =>
    by_cases hall : pyLower s = allTok
    · rw [parse_page_range_all _ _ hall] at h
      have hl : pyRange 0 (min total_pages max_pages) = l := by simpa using h
      exact hall_bounds l hl.symm
    · by_cases hdig : pyIsDigit s = true
      · rw [parse_page_range_digit _ _ hdig] at h
        by_cases hrange : (digitsVal s : Int) < 1 ∨ (digitsVal s : Int) > total_pages
        · rw [if_pos hrange] at h
          simp at h
        · rw [if_neg hrange] at h
          have hl : [(digitsVal s : Int) - 1] = l := by simpa using h
          rw [← hl]
          constructor
          · intro i hi
            rw [List.mem_singleton.mp hi]
            omega
          · simp
            omega
      · have hdigF : pyIsDigit s = false := by
          cases h2 : pyIsDigit s
          · rfl
          · exact absurd h2 hdig
        by_cases hcomma : s.contains ',' = true
        · rw [parse_page_range_comma _ _ hcomma] at h
          cases hm : (splitChar ',' s).mapM (fun t => pyInt (pyStrip t)) with
          | none =>
            rw [hm] at h
            simp at h
          | some page_nums =>
            rw [hm] at h
            simp only [] at h
            cases hf : page_nums.find? (fun p => decide (p < 1 ∨ p > total_pages)) with
            | some p =>
              rw [hf] at h
              simp at h
            | none =>
              rw [hf] at h
              have hl : (page_nums.take max_pages.toNat).map (fun p => p - 1) = l := by
                simpa using h
              rw [← hl]
              have hrange : ∀ p ∈ page_nums, 1 ≤ p ∧ p ≤ total_pages := by
                intro p hp
                have := List.find?_eq_none.mp hf p hp
                simp at this
                omega
              constructor
              · intro i hi
                obtain ⟨p, hp, rfl⟩ := List.mem_map.mp hi
                have := hrange p (List.mem_of_mem_take hp)
                omega
              · rw [List.length_map, List.length_take]
                have : min max_pages.toNat page_nums.length ≤ max_pages.toNat :=
                  Nat.min_le_left _ _
                omega
        · have hcommaF : s.contains ',' = false := by
            cases h2 : s.contains ','
            · rfl
            · exact absurd h2 hcomma
          by_cases hdash : s.contains '-' = true
          · rw [parse_page_range_dash _ _ hdash hcommaF] at h
            cases hpa : pyInt (splitOnce '-' s).1 with
            | none =>
              rw [hpa] at h
              simp at h
            | some start =>
              cases hpb : pyInt (splitOnce '-' s).2 with
              | none =>
                rw [hpa, hpb] at h
                simp at h
              | some stop =>
                rw [hpa, hpb] at h
                simp only [] at h
                by_cases h1 : start > stop
                · rw [if_pos h1] at h
                  simp at h
                · rw [if_neg h1] at h
                  by_cases h2 : start < 1
                  · rw [if_pos h2] at h
                    simp at h
                  · rw [if_neg h2] at h
                    by_cases h3 : stop > total_pages
                    · rw [if_pos h3] at h
                      simp at h
                    · rw [if_neg h3] at h
                      have hl : pyRange (start - 1) (min stop (start - 1 + max_pages)) = l := by
                        simpa using h
                      rw [← hl]
                      constructor
                      · intro i hi
                        have := mem_pyRange.mp hi
                        omega
                      · rw [pyRange_length]
                        omega
          · have hdashF : s.contains '-' = false := by
              cases h2 : s.contains '-'
              · rfl
              · exact absurd h2 hdash
            rw [parse_page_range_other _ _ hall hdigF hdashF hcommaF] at h
            simp at h

/-- Witness for C2 at the concrete input `"2,5,1"`, `total_pages = 5`,
`max_pages = 2` (the returned list is `[1, 4]`). -/
theorem C2_witness :
    (∀ i ∈ ([1, 4] : List Int), 0 ≤ i ∧ i < 5) ∧ (([1, 4] : List Int).length : Int) ≤ 2 :=
  C2_index_invariant (some ("2,5,1".toList)) 5 2 (by decide) (by decide) [1, 4] (by decide)

/-- C1: for every selection of the form `start-end` (a dash expression with
no comma, whose two sides parse as the integers `start` and `stop`), with
`1 <= start <= stop <= total_pages` and `max_pages >= 1`, the parser
returns (with no error and no truncation signal) the ascending 0-based
indices from `start - 1` up to but not exceeding `start - 1 + max_pages - 1`,
capped at `stop - 1`: inclusive of `stop - 1` when the range fits, never
longer than `max_pages`, and a longer range is cut to its first `max_pages`
pages (lines 60-71). -/
theorem C1_dash_range_truncation (s : PyStr) (total_pages max_pages start stop : Int)
    (hd : s.contains '-' = true) (hc : s.contains ',' = false)
    (hpa : pyInt (splitOnce '-' s).1 = some start)
    (hpb : pyInt (splitOnce '-' s).2 = some stop)
    (h1 : 1 ≤ start) (h2 : start ≤ stop) (h3 : stop ≤ total_pages)
    (hmax : 1 ≤ max_pages) :
    parse_page_range (some s) total_pages max_pages =
      .ok (pyRange (start - 1) (min stop (start - 1 + max_pages))) ∧
    (∀ i, i ∈ pyRange (start - 1) (min stop (start - 1 + max_pages)) ↔
      start - 1 ≤ i ∧ i ≤ min (stop - 1) (start - 1 + max_pages - 1)) ∧
    (pyRange (start - 1) (min stop (start - 1 + max_pages))).Sorted (· < ·) ∧
    ((pyRange (start - 1) (min stop (start - 1 + max_pages))).length : Int) =
      min (stop - start + 1) max_pages ∧
    (stop - start + 1 ≤ max_pages →
      pyRange (start - 1) (min stop (start - 1 + max_pages)) = pyRange (start - 1) stop ∧
      stop - 1 ∈ pyRange (start - 1) stop) := by
  refine ⟨?_, ?_, pyRange_sorted _ _, ?_, ?_⟩
  · rw [parse_page_range_dash _ _ hd hc, hpa, hpb]
    simp only []
    rw [if_neg (by omega), if_neg (by omega), if_neg (by omega)]
  · intro i
    rw [mem_pyRange]
    omega
  · rw [pyRange_length]
    omega
  · intro hfit
    rw [min_eq_left (by omega)]
    exact ⟨rfl, mem_pyRange.mpr (by omega)⟩

/-- Witness for C1 at the concrete inputs of the spec: `"3-7"` with
`total_pages = 7` and `max_pages = 5` (full range), and `max_pages = 3`
(silent truncation). -/
theorem C1_witness :
    parse_page_range (some ("3-7".toList)) 7 5 = .ok [2, 3, 4, 5, 6] ∧
    parse_page_range (some ("3-7".toList)) 7 3 = .ok [2, 3, 4] := by
  constructor
  · have h := (C1_dash_range_truncation ("3-7".toList) 7 5 3 7 (by decide) (by decide)
      (by decide) (by decide) (by decide) (by decide) (by decide) (by decide)).1
    exact h.trans (by decide)
  · have h := (C1_dash_range_truncation ("3-7".toList) 7 3 3 7 (by decide) (by decide)
      (by decide) (by decide) (by decide) (by decide) (by decide) (by decide)).1
    exact h.trans (by decide)

/-- C6: for every dash selection whose two sides parse as the integers
`start` and `stop`, the error checks apply in this order: `start > stop`
gives the invalid-range error; otherwise `start < 1` or
`stop > total_pages` gives an error of the spec's `PageOutOfRange` kind
(lines 64-69; the `start < 1` message is the "Page numbers start at 1"
template, which the spec's own "0-2" example files under `PageOutOfRange`). -/
theorem C6_dash_error_order (s : PyStr) (total_pages max_pages start stop : Int)
    (hd : s.contains '-' = true) (hc : s.contains ',' = false)
    (hpa : pyInt (splitOnce '-' s).1 = some start)
    (hpb : pyInt (splitOnce '-' s).2 = some stop) :
    (start > stop →
      parse_page_range (some s) total_pages max_pages = .err (.invalidRange s) ∧
      errKind (.invalidRange s) = .invalidRange) ∧
    (start ≤ stop → start < 1 →
      parse_page_range (some s) total_pages max_pages = .err (.startBelowOne start) ∧
      errKind (.startBelowOne start) = .pageOutOfRange) ∧
    (start ≤ stop → 1 ≤ start → stop > total_pages →
      parse_page_range (some s) total_pages max_pages =
        .err (.pageOutOfRange stop total_pages) ∧
      errKind (.pageOutOfRange stop total_pages) = .pageOutOfRange) := by
  rw [parse_page_range_dash _ _ hd hc, hpa, hpb]
  simp only []
  refine ⟨fun hgt => ⟨?_, rfl⟩, fun hle hlt => ⟨?_, rfl⟩, fun hle hge hgt => ⟨?_, rfl⟩⟩
  · rw [if_pos hgt]
  · rw [if_neg (by omega), if_pos hlt]
  · rw [if_neg (by omega), if_neg (by omega), if_pos hgt]

/-- Witness for C6 at the spec's concrete inputs `"0-2"` (PageOutOfRange
because pages are 1-based) and `"5-2"` (InvalidRange because start > end),
with `total_pages = 10`, `max_pages = 100`. -/
theorem C6_witness :
    (parse_page_range (some ("0-2".toList)) 10 100 = .err (.startBelowOne 0) ∧
      errKind (.startBelowOne 0) = .pageOutOfRange) ∧
    (parse_page_range (some ("5-2".toList)) 10 100 = .err (.invalidRange ("5-2".toList)) ∧
      errKind (.invalidRange ("5-2".toList)) = .invalidRange) := by
  constructor
  · exact (C6_dash_error_order ("0-2".toList) 10 100 0 2 (by decide) (by decide)
      (by decide) (by decide)).2.1 (by decide) (by decide)
  · exact (C6_dash_error_order ("5-2".toList) 10 100 5 2 (by decide) (by decide)
      (by decide) (by decide)).1 (by decide)

/-- C3: for every selection containing at least one comma (which is never
all-digit, never the "all" token, and disables the dash branch), the parser
splits on commas and parses each whitespace-trimmed token: any parse
failure gives the invalid-format error; otherwise any parsed value outside
`[1, total_pages]` - including values beyond the first `max_pages` - gives
a page-out-of-range error citing such a value; otherwise the result is the
first `max_pages` parsed values converted to 0-based in input order,
preserving duplicates and order (lines 73-79). -/
theorem C3_comma_list (s : PyStr) (total_pages max_pages : Int)
    (hc : s.contains ',' = true) (hmax : 1 ≤ max_pages) :
    ((splitChar ',' s).mapM (fun t => pyInt (pyStrip t)) = none →
      parse_page_range (some s) total_pages max_pages = .err (.invalidFormatParse s) ∧
      errKind (.invalidFormatParse s) = .invalidFormat) ∧
    (∀ page_nums, (splitChar ',' s).mapM (fun t => pyInt (pyStrip t)) = some page_nums →
      ((∃ p ∈ page_nums, p < 1 ∨ p > total_pages) →
        ∃ q ∈ page_nums, (q < 1 ∨ q > total_pages) ∧
          parse_page_range (some s) total_pages max_pages =
            .err (.pageOutOfRange q total_pages) ∧
          errKind (.pageOutOfRange q total_pages) = .pageOutOfRange) ∧
      ((∀ p ∈ page_nums, 1 ≤ p ∧ p ≤ total_pages) →
        parse_page_range (some s) total_pages max_pages =
          .ok ((page_nums.take max_pages.toNat).map (fun p => p - 1)))) := by
  rw [parse_page_range_comma _ _ hc]
  constructor
  · intro hm
    rw [hm]
    exact ⟨rfl, rfl⟩
  · intro page_nums hm
    rw [hm]
    simp only []
    constructor
    · rintro ⟨p, hp, hcond⟩
      have hsome : (page_nums.find? (fun p => decide (p < 1 ∨ p > total_pages))).isSome :=
        List.find?_isSome.mpr ⟨p, hp, by simpa using hcond⟩
      obtain ⟨q, hq⟩ := Option.isSome_iff_exists.mp hsome
      refine ⟨q, List.mem_of_find?_eq_some hq, ?_, ?_, rfl⟩
      · simpa using List.find?_some hq
      · rw [hq]
    · intro hin
      have hnone : page_nums.find? (fun p => decide (p < 1 ∨ p > total_pages)) = none := by
        rw [List.find?_eq_none]
        intro p hp
        have := hin p hp
        simp
        omega
      rw [hnone]

/-- Witness for C3 at the spec's concrete input `"2,5,1"` with
`total_pages = 5`, `max_pages = 10`: order preserved, not sorted. -/
theorem C3_witness :
    parse_page_range (some ("2,5,1".toList)) 5 10 = .ok [1, 4, 0] := by
  have h := ((C3_comma_list ("2,5,1".toList) 5 10 (by decide) (by decide)).2
    [2, 5, 1] (by decide)).2 (by decide)
  exact h.trans (by decide)

/-- C7 counterexample: the claim says a selection with more than one dash
and no comma ("2--4") falls through to the final rule and fails with
InvalidFormat; in the code the dash branch fires on any string containing
a dash, `"2--4".split("-", 1)` gives `("2", "-4")`, both sides parse, and
2 > -4 produces the InvalidRange error instead. -/
theorem C7_counterexample :
    parse_page_range (some ("2--4".toList)) 10 100 = .err (.invalidRange ("2--4".toList)) ∧
    errKind (.invalidRange ("2--4".toList)) ≠ .invalidFormat := by
  exact ⟨by decide, by decide⟩

/-- C7 amended: the dash rule applies whenever the selection contains at
least one `-` and no `,`; the string is split at its first dash and the
result is entirely determined by the dash-branch computation of
lines 60-71 (so `"2--4"` parses as start 2, end -4 and fails with
InvalidRange, while a dash string whose sides do not both parse as
integers fails with InvalidFormat; the final InvalidFormat rule of line 81
is never reached). -/
theorem C7_amended_dash_branch (s : PyStr) (total_pages max_pages : Int)
    (hd : s.contains '-' = true) (hc : s.contains ',' = false) :
    parse_page_range (some s) total_pages max_pages =
      match pyInt (splitOnce '-' s).1, pyInt (splitOnce '-' s).2 with
      | some start, some stop =>
        if start > stop then .err (.invalidRange s)
        else if start < 1 then .err (.startBelowOne start)
        else if stop > total_pages then .err (.pageOutOfRange stop total_pages)
        else .ok (pyRange (start - 1) (min stop (start - 1 + max_pages)))
      | _, _ => .err (.invalidFormatParse s) :=
  parse_page_range_dash _ _ hd hc

/-- Witness for the amended C7 at the concrete input `"2--4"`. -/
theorem C7_witness :
    parse_page_range (some ("2--4".toList)) 100 100 = .err (.invalidRange ("2--4".toList)) := by
  have h := C7_amended_dash_branch ("2--4".toList) 100 100 (by decide) (by decide)
  exact h.trans (by decide)

/-- C10: a dash selection (at least one `-`, no `,`) for which either side
of the first dash fails to parse as an integer - for example the single
negative number `"-3"`, whose left side is empty - produces the
invalid-format error of the dash branch (lines 61-62 raising ValueError
into lines 83-84), which is of kind InvalidFormat and not PageOutOfRange. -/
theorem C10_dash_parse_failure (s : PyStr) (total_pages max_pages : Int)
    (hd : s.contains '-' = true) (hc : s.contains ',' = false)
    (hfail : pyInt (splitOnce '-' s).1 = none ∨ pyInt (splitOnce '-' s).2 = none) :
    parse_page_range (some s) total_pages max_pages = .err (.invalidFormatParse s) ∧
    errKind (.invalidFormatParse s) = .invalidFormat ∧
    errKind (.invalidFormatParse s) ≠ .pageOutOfRange := by
  rw [parse_page_range_dash _ _ hd hc]
  refine ⟨?_, rfl, by intro h2; exact ErrKind.noConfusion h2⟩
  rcases hfail with hf | hf
  · rw [hf]
  · cases hg : pyInt (splitOnce '-' s).1 with
    | none => rfl
    | some a => rw [hf]

/-- Witness for C10 at the concrete input `"-3"` (InvalidFormat, not
PageOutOfRange). -/
theorem C10_witness :
    parse_page_range (some ("-3".toList)) 10 100 = .err (.invalidFormatParse ("-3".toList)) :=
  (C10_dash_parse_failure ("-3".toList) 10 100 (by decide) (by decide) (Or.inl (by decide))).1

/-- C9: in every successful extraction result - `content` being built by
joining, per selected page, a marker line followed by that page's text
with a blank line between pages (lines 145-149) - `pages_extracted` equals
the number of page marker lines in `content`, provided no page's extracted
text itself contains a marker line, and `char_count` equals the exact
length of `content` (lines 156-158). -/
theorem C9_roundtrip (doc : PdfDocument) (pathStr nameStr : PyStr) (pages : Option PyStr)
    (max_pages : Int) (include_metadata : Bool) (r : ExtractionResult)
    (hok : pdf_read doc pathStr nameStr pages max_pages include_metadata = .ok r)
    (htext : ∀ t ∈ doc.pageTexts, ∀ l ∈ splitChar '\n' (t.getD []), isMarkerLine l = false) :
    r.pages_extracted = countMarkers r.content ∧ r.char_count = r.content.length := by
  simp only [pdf_read] at hok
  split at hok
  · exact absurd hok (by simp)
  · split at hok
    · exact absurd hok (by simp)
    · next idxs heq =>
      simp only [PdfOut.ok.injEq] at hok
      subst hok
      exact ⟨(countMarkers_pdfContent doc idxs htext).symm, rfl⟩

/-- Witness for C9 at the concrete two-page document `doc1` (whose second
page text contains an internal newline): two pages extracted, two marker
lines counted, character count equal to the content length. -/
theorem C9_witness :
    pdf_read doc1 [] [] none 100 true = .ok res1 ∧
    res1.pages_extracted = countMarkers res1.content ∧
    res1.char_count = res1.content.length := by
  have hok : pdf_read doc1 [] [] none 100 true = .ok res1 := by decide
  have h := C9_roundtrip doc1 [] [] none 100 true res1 hok (by decide)
  exact ⟨hok, h.1, h.2⟩

/-- C8 counterexample: the claim says that when metadata is included, a
missing creation date is "left absent from the metadata record"; in the
code (lines 163-171) the dict literal always contains the "created" and
"modified" keys, a missing date yielding the value `None` - the key is
present with a null value, not absent.  `doc0` has metadata with no dates;
its extraction result's metadata record contains `created` with a `none`
value. -/
theorem C8_counterexample :
    pdf_read doc0 [] [] none 100 true = .ok res0 ∧
    res0.metadata = some (buildMeta meta0) ∧
    List.lookup MetaKey.created (buildMeta meta0) = some none ∧
    ¬ List.lookup MetaKey.created (buildMeta meta0) = none := by
  exact ⟨by decide, by decide, by decide, by decide⟩

/-- C8 amended: in every successful extraction result, the `metadata`
field is omitted entirely (it is only ever assigned inside the guard on
line 161) when `include_metadata` is false or the document reports no
metadata; when metadata is included, the record is `buildMeta m`, in which
the created/modified keys are always present, carrying the date's string
representation when the date is present (and truthy) and a null value
otherwise (lines 161-171). -/
theorem C8_amended_metadata (doc : PdfDocument) (pathStr nameStr : PyStr)
    (pages : Option PyStr) (max_pages : Int) (include_metadata : Bool) (r : ExtractionResult)
    (hok : pdf_read doc pathStr nameStr pages max_pages include_metadata = .ok r) :
    ((include_metadata = false ∨ doc.metadata = none) → r.metadata = none) ∧
    (∀ m, include_metadata = true → doc.metadata = some m →
      r.metadata = some (buildMeta m) ∧
      List.lookup MetaKey.created (buildMeta m) = some (strIfTruthy m.creationDate) ∧
      List.lookup MetaKey.modified (buildMeta m) = some (strIfTruthy m.modDate)) := by
  simp only [pdf_read] at hok
  split at hok
  · exact absurd hok (by simp)
  · split at hok
    · exact absurd hok (by simp)
    · next idxs heq =>
      simp only [PdfOut.ok.injEq] at hok
      subst hok
      constructor
      · rintro (him | hmeta)
        · simp [him]
        · simp [hmeta]
      · intro m him hm
        rw [him, hm]
        exact ⟨by simp, rfl, rfl⟩

/-- Witness for the amended C8 at the concrete document `doc0` (metadata
present, both dates absent): the metadata field carries `buildMeta meta0`,
whose created/modified keys are present with null values. -/
theorem C8_witness :
    res0.metadata = some (buildMeta meta0) ∧
    List.lookup MetaKey.created (buildMeta meta0) = some (strIfTruthy meta0.creationDate) ∧
    List.lookup MetaKey.modified (buildMeta meta0) = some (strIfTruthy meta0.modDate) := by
  have h := (C8_amended_metadata doc0 [] [] none 100 true res0 (by decide)).2 meta0 rfl rfl
  exact ⟨h.1, h.2.1, h.2.2⟩
